import Mathlib

/-!
Verification of the Type-Dispatching Numeric Facade of AeroSandbox
(`aerosandbox.numpy`), together with the small slice of the `Opti`
interface used by the tutorial notebooks (`opti.subject_to`,
`opti.variable(log_transform=True)`).

The repository snapshot contains only the tutorial notebooks that call
the facade; the facade implementation itself is not among the sources.
The definitions below are therefore modelled from the specification of
the dispatch mechanism (argument kinds, operation descriptors, the
dispatch rule, the error taxonomy, and the registration interface),
with rational numbers standing in for the floating-point scalars.
-/

namespace ASB

/-- Modelled from the spec: the shape of a numeric value — `none` for a
plain scalar, `some n` for a one-dimensional array of length `n`. -/
abbrev Shape := Option Nat

/-- Modelled from the spec: a Concrete Value is a plain numeric scalar
or fixed-size array of numbers (rationals stand in for floats). -/
inductive Concrete where
  | scalar : ℚ → Concrete
  | array : List ℚ → Concrete
deriving DecidableEq, Repr

/-- Shape of a Concrete Value. -/
def Concrete.shape : Concrete → Shape
  | .scalar _ => none
  | .array xs => some xs.length

/-- Modelled from the spec: a Symbolic Node is an opaque handle into an
externally managed computation graph: a constant node (the coercion of a
Concrete Value), a decision-variable placeholder, or the application of
a named operation to child nodes.  Nodes carry their shape, as graph
nodes in the external library do. -/
inductive Node where
  | constNode : Concrete → Node
  | varNode : Nat → Shape → Node
  | appNode : String → List Node → Shape → Node
deriving Repr

/-- Shape of a Symbolic Node. -/
def Node.shape : Node → Shape
  | .constNode c => c.shape
  | .varNode _ sh => sh
  | .appNode _ _ sh => sh

/-- Modelled from the spec: an argument to the facade is either a
Concrete Value or a Symbolic Node. -/
inductive Value where
  | concrete : Concrete → Value
  | symbolic : Node → Value
deriving Repr

/-- Kind test used by the dispatch rule: `true` exactly on Symbolic
Nodes.  This is the O(1) tag check of the spec. -/
def Value.isSymbolic : Value → Bool
  | .concrete _ => false
  | .symbolic _ => true

/-- Shape of an argument of either kind. -/
def Value.shape : Value → Shape
  | .concrete c => c.shape
  | .symbolic n => n.shape

/-- Modelled from the spec: coercion of a mixed argument into the
computation graph — a Concrete Value becomes a constant graph node, a
Symbolic Node is passed through unchanged. -/
def Value.toNode : Value → Node
  | .concrete c => .constNode c
  | .symbolic n => n

/-- Modelled from the spec: the error taxonomy of the facade
(UnsupportedOperation, ShapeMismatch, RegistrationConflict), plus the
evaluation-time error for a graph still containing free decision
variables. -/
inductive FacadeError where
  | unsupportedOperation
  | shapeMismatch
  | registrationConflict
  | freeVariable
deriving DecidableEq, Repr

/-- Modelled from the spec: an Operation Descriptor — a named
mathematical function with a broadcasting/shape rule, a concrete-path
implementation (the conventional array-library function itself), and an
optional symbolic-path implementation emitting a graph node. -/
structure OpDescriptor where
  name : String
  shapeRule : List Shape → Option Shape
  concreteImpl : List Concrete → Except FacadeError Concrete
  symbolicImpl : Option (List Node → Shape → Node)

/-- The operation registry: a list of Operation Descriptors keyed by
name. -/
abbrev Registry := List OpDescriptor

/-- Look an operation up by name in the registry. -/
def lookupOp (reg : Registry) (opName : String) : Option OpDescriptor :=
  reg.find? (fun d => d.name == opName)

/-- Modelled from the spec: the registration interface.  Registering a
second implementation pair under an already-used operation name fails
with `registrationConflict` at registration time; otherwise the
descriptor is appended to the registry. -/
def register (reg : Registry) (d : OpDescriptor) : Except FacadeError Registry :=
  if reg.any (fun d0 => d0.name == d.name) then .error .registrationConflict
  else .ok (reg ++ [d])

/-- Extract the list of Concrete Values from an all-concrete argument
list; `none` if any argument is symbolic. -/
def allConcrete : List Value → Option (List Concrete)
  | [] => some []
  | .concrete c :: rest => (allConcrete rest).map (fun cs => c :: cs)
  | .symbolic _ :: _ => none

/-- Modelled from the spec: the dispatch rule of the facade.  Inspect
each argument's kind: if every argument is a Concrete Value, invoke the
concrete-path implementation and return its result unchanged; if at
least one argument is a Symbolic Node, invoke the symbolic-path
implementation (after coercing Concrete arguments to constant graph
nodes), failing with `unsupportedOperation` when none is registered and
with `shapeMismatch` when the argument shapes are incompatible under
the operation's broadcasting rule. -/
def dispatch (reg : Registry) (opName : String) (args : List Value) :
    Except FacadeError Value :=
  match lookupOp reg opName with
  | none => .error .unsupportedOperation
  | some d =>
    if args.any Value.isSymbolic then
      match d.symbolicImpl with
      | none => .error .unsupportedOperation
      | some build =>
        match d.shapeRule (args.map Value.shape) with
        | none => .error .shapeMismatch
        | some outShape => .ok (.symbolic (build (args.map Value.toNode) outShape))
    else
      match allConcrete args with
      | none => .error .unsupportedOperation
      | some cs => (d.concreteImpl cs).map Value.concrete

/-- The canonical symbolic-path implementation for a named operation:
emit an application node of that operation. -/
def appBuilder (opName : String) : List Node → Shape → Node :=
  fun args outShape => .appNode opName args outShape

/-- Broadcasting of two one-dimensional shapes, following the
conventional array-library rule: a scalar broadcasts with anything, two
arrays broadcast when their lengths agree or either length is one. -/
def broadcastShape : Shape → Shape → Option Shape
  | none, s => some s
  | some n, none => some (some n)
  | some n, some m =>
    if n = m then some (some n)
    else if n = 1 then some (some m)
    else if m = 1 then some (some n)
    else none

/-- Shape rule of a binary elementwise operation: exactly two arguments
whose shapes broadcast. -/
def binaryShapeRule : List Shape → Option Shape
  | [a, b] => broadcastShape a b
  | _ => none

/-- Shape rule of a unary elementwise operation. -/
def unaryShapeRule : List Shape → Option Shape
  | [s] => some s
  | _ => none

/-- Shape rule of a full reduction such as `sum`: one argument of any
shape, scalar result. -/
def reduceShapeRule : List Shape → Option Shape
  | [_] => some none
  | _ => none

namespace ConvLib

/-- The conventional array-library's elementwise application of a binary
scalar function under broadcasting; fails with `shapeMismatch` on
incompatible array lengths. -/
def broadcast2 (f : ℚ → ℚ → ℚ) : Concrete → Concrete → Except FacadeError Concrete
  | .scalar x, .scalar y => .ok (.scalar (f x y))
  | .scalar x, .array ys => .ok (.array (ys.map (fun y => f x y)))
  | .array xs, .scalar y => .ok (.array (xs.map (fun x => f x y)))
  | .array xs, .array ys =>
    if xs.length = ys.length then .ok (.array (List.zipWith f xs ys))
    else if xs.length = 1 then .ok (.array (ys.map (fun y => f xs.headI y)))
    else if ys.length = 1 then .ok (.array (xs.map (fun x => f x ys.headI)))
    else .error .shapeMismatch

/-- A binary elementwise library function on argument lists. -/
def binaryImpl (f : ℚ → ℚ → ℚ) : List Concrete → Except FacadeError Concrete
  | [a, b] => broadcast2 f a b
  | _ => .error .shapeMismatch

/-- Elementwise application of a unary scalar function. -/
def mapConcrete (f : ℚ → ℚ) : Concrete → Concrete
  | .scalar x => .scalar (f x)
  | .array xs => .array (xs.map f)

/-- A unary elementwise library function on argument lists. -/
def unaryImpl (f : ℚ → ℚ) : List Concrete → Except FacadeError Concrete
  | [a] => .ok (mapConcrete f a)
  | _ => .error .shapeMismatch

/-- The conventional library's `add`. -/
def add : List Concrete → Except FacadeError Concrete :=
  binaryImpl (fun x y => x + y)

/-- The conventional library's `subtract`. -/
def subtract : List Concrete → Except FacadeError Concrete :=
  binaryImpl (fun x y => x - y)

/-- The conventional library's `multiply`. -/
def multiply : List Concrete → Except FacadeError Concrete :=
  binaryImpl (fun x y => x * y)

/-- The conventional library's `true_divide`. -/
def divide : List Concrete → Except FacadeError Concrete :=
  binaryImpl (fun x y => x / y)

/-- The conventional library's `greater_equal`, with 0/1 encoding of the
boolean result. -/
def greater_equal : List Concrete → Except FacadeError Concrete :=
  binaryImpl (fun x y => if y ≤ x then 1 else 0)

/-- The conventional library's `less_equal`. -/
def less_equal : List Concrete → Except FacadeError Concrete :=
  binaryImpl (fun x y => if x ≤ y then 1 else 0)

/-- The conventional library's `less`. -/
def less : List Concrete → Except FacadeError Concrete :=
  binaryImpl (fun x y => if x < y then 1 else 0)

/-- The conventional library's `greater`. -/
def greater : List Concrete → Except FacadeError Concrete :=
  binaryImpl (fun x y => if y < x then 1 else 0)

/-- The conventional library's `fabs`. -/
def fabs : List Concrete → Except FacadeError Concrete :=
  unaryImpl (fun x => |x|)

/-- The conventional library's `negative`. -/
def negative : List Concrete → Except FacadeError Concrete :=
  unaryImpl (fun x => -x)

/-- The conventional library's full `sum` reduction. -/
def sum : List Concrete → Except FacadeError Concrete
  | [.scalar x] => .ok (.scalar x)
  | [.array xs] => .ok (.scalar xs.sum)
  | _ => .error .shapeMismatch

/-- Modelled from the spec: `foo`, the spec's example of a library
function for which only a concrete-path implementation is registered
(the symbolic path is a registration gap). -/
def foo : List Concrete → Except FacadeError Concrete
  | [c] => .ok c
  | _ => .error .shapeMismatch

end ConvLib

/-- Descriptor of a binary elementwise operation with both paths
registered. -/
def mkBinaryOp (opName : String) (impl : List Concrete → Except FacadeError Concrete) :
    OpDescriptor :=
  ⟨opName, binaryShapeRule, impl, some (appBuilder opName)⟩

/-- Descriptor of a unary elementwise operation with both paths
registered. -/
def mkUnaryOp (opName : String) (impl : List Concrete → Except FacadeError Concrete) :
    OpDescriptor :=
  ⟨opName, unaryShapeRule, impl, some (appBuilder opName)⟩

/-- The `add` Operation Descriptor. -/
def addOp : OpDescriptor := mkBinaryOp "add" ConvLib.add

/-- The `subtract` Operation Descriptor. -/
def subtractOp : OpDescriptor := mkBinaryOp "subtract" ConvLib.subtract

/-- The `multiply` Operation Descriptor. -/
def multiplyOp : OpDescriptor := mkBinaryOp "multiply" ConvLib.multiply

/-- The `divide` Operation Descriptor. -/
def divideOp : OpDescriptor := mkBinaryOp "divide" ConvLib.divide

/-- The `greater_equal` Operation Descriptor (used for `x >= 0`). -/
def greaterEqualOp : OpDescriptor := mkBinaryOp "greater_equal" ConvLib.greater_equal

/-- The `less_equal` Operation Descriptor (used for `x <= pi / 2`). -/
def lessEqualOp : OpDescriptor := mkBinaryOp "less_equal" ConvLib.less_equal

/-- The `less` Operation Descriptor (used for `CL < 1.2`). -/
def lessOp : OpDescriptor := mkBinaryOp "less" ConvLib.less

/-- The `greater` Operation Descriptor. -/
def greaterOp : OpDescriptor := mkBinaryOp "greater" ConvLib.greater

/-- The `fabs` Operation Descriptor. -/
def fabsOp : OpDescriptor := mkUnaryOp "fabs" ConvLib.fabs

/-- The `negative` Operation Descriptor. -/
def negativeOp : OpDescriptor := mkUnaryOp "negative" ConvLib.negative

/-- The `sum` Operation Descriptor. -/
def sumOp : OpDescriptor := ⟨"sum", reduceShapeRule, ConvLib.sum, some (appBuilder "sum")⟩

/-- Modelled from the spec: the `foo` Operation Descriptor, registered
with a concrete path only — the spec's example of an operation whose
symbolic path is missing. -/
def fooOp : OpDescriptor := ⟨"foo", unaryShapeRule, ConvLib.foo, none⟩

/-- Modelled from the spec: the static operation registry, populated
once at process start. -/
def builtinRegistry : Registry :=
  [addOp, subtractOp, multiplyOp, divideOp, greaterEqualOp, lessEqualOp,
   lessOp, greaterOp, fabsOp, negativeOp, sumOp, fooOp]

mutual

/-- Modelled from the spec: evaluation of a computation graph by the
external solver, once every decision variable has been resolved —
constant nodes evaluate to their payload, application nodes evaluate
their children and apply the operation's concrete implementation. -/
def evalNode (reg : Registry) : Node → Except FacadeError Concrete
  | .constNode c => .ok c
  | .varNode _ _ => .error .freeVariable
  | .appNode opName args _ =>
    match lookupOp reg opName with
    | none => .error .unsupportedOperation
    | some d =>
      match evalNodes reg args with
      | .error e => .error e
      | .ok cs =>
        match d.shapeRule (cs.map Concrete.shape) with
        | none => .error .shapeMismatch
        | some _ => d.concreteImpl cs

/-- Evaluate a list of graph nodes left to right. -/
def evalNodes (reg : Registry) : List Node → Except FacadeError (List Concrete)
  | [] => .ok []
  | n :: ns =>
    match evalNode reg n with
    | .error e => .error e
    | .ok c =>
      match evalNodes reg ns with
      | .error e => .error e
      | .ok cs => .ok (c :: cs)

end

/-- Modelled from the spec: the declaration record of one optimization
variable — its initial guess, whether it is log-transformed, and an
optional lower bound. -/
structure VarSpec where
  initGuess : ℚ
  logTransform : Bool
  lowerBound : Option ℚ
deriving DecidableEq, Repr

/-- Modelled from the spec: the slice of the external `Opti`
optimization environment the notebooks use — the declared variables and
the registered constraints (each constraint is a Symbolic Node built by
a comparison operation). -/
structure Opti where
  vars : List VarSpec
  constraints : List Node

/-- Modelled from the spec: the argument of `opti.subject_to` — either
one constraint or a list of constraints. -/
inductive ConstraintArg where
  | single : Node → ConstraintArg
  | list : List Node → ConstraintArg

/-- Modelled from the spec: `opti.subject_to` appends the given
constraint, or each constraint of the given list, to the environment. -/
def Opti.subject_to (o : Opti) : ConstraintArg → Opti
  | .single n => { o with constraints := o.constraints ++ [n] }
  | .list ns => { o with constraints := o.constraints ++ ns }

/-- Modelled from the spec: `opti.variable` declares a fresh decision
variable with the given initial guess, log-transform flag and optional
lower bound, and returns its graph node.  It adds no constraint. -/
def Opti.newVariable (o : Opti) (initGuess : ℚ) (logTransform : Bool)
    (lowerBound : Option ℚ) : Opti × Node :=
  ({ o with vars := o.vars ++ [⟨initGuess, logTransform, lowerBound⟩] },
   .varNode o.vars.length none)

/-- Modelled from the spec: the externally visible value of a declared
scalar variable, as a function of the solver's internal iterate.  A
log-transformed variable is internally optimized as its logarithm, so
its visible value is the exponential of the internal iterate; an
untransformed variable is the internal iterate itself. -/
noncomputable def variableValue (logTransform : Bool) (internal : ℝ) : ℝ :=
  if logTransform then Real.exp internal else internal

/-- Modelled from the spec: the facade's global state is exactly the
operation registry. -/
structure FacadeState where
  registry : Registry

/-- A facade call against the global state: it returns the dispatch
result together with the (unchanged) state. -/
def callOp (s : FacadeState) (opName : String) (args : List Value) :
    Except FacadeError Value × FacadeState :=
  (dispatch s.registry opName args, s)

/-- Run a sequence of facade calls, threading the global state. -/
def runCalls (s : FacadeState) : List (String × List Value) → FacadeState
  | [] => s
  | c :: rest => runCalls (callOp s c.1 c.2).2 rest

/-- The facade state at process start: the builtin registry. -/
def initState : FacadeState := ⟨builtinRegistry⟩

/-- An Operation Descriptor is well formed when its concrete-path
implementation reports the library's own `shapeMismatch` error exactly
on the argument lists its broadcasting rule rejects. -/
def WellFormedOp (d : OpDescriptor) : Prop :=
  ∀ cs : List Concrete,
    d.shapeRule (cs.map Concrete.shape) = none →
    d.concreteImpl cs = .error .shapeMismatch

theorem any_isSymbolic_map_concrete (cs : List Concrete) :
    (cs.map Value.concrete).any Value.isSymbolic = false := by
  induction cs with
  | nil => rfl
  | cons c rest ih => simp [Value.isSymbolic, ih]

theorem allConcrete_map_concrete (cs : List Concrete) :
    allConcrete (cs.map Value.concrete) = some cs := by
  induction cs with
  | nil => rfl
  | cons c rest ih => simp [allConcrete, ih]

/-- Helper: on an all-concrete argument list the facade returns exactly
the concrete-path implementation's result. -/
theorem dispatch_map_concrete (reg : Registry) (opName : String)
    (d : OpDescriptor) (cs : List Concrete)
    (hlook : lookupOp reg opName = some d) :
    dispatch reg opName (cs.map Value.concrete)
      = (d.concreteImpl cs).map Value.concrete := by
  simp [dispatch, hlook, any_isSymbolic_map_concrete, allConcrete_map_concrete]

theorem evalNodes_constNodes (reg : Registry) (cs : List Concrete) :
    evalNodes reg (cs.map Node.constNode) = .ok cs := by
  induction cs with
  | nil => simp [evalNodes]
  | cons c rest ih => simp [evalNodes, evalNode, ih]

theorem broadcastShape_none_right (s : Shape) :
    broadcastShape s none = some s := by
  cases s with
  | none => rfl
  | some n => rfl

theorem binaryImpl_wf (f : ℚ → ℚ → ℚ) (cs : List Concrete)
    (h : binaryShapeRule (cs.map Concrete.shape) = none) :
    ConvLib.binaryImpl f cs = .error .shapeMismatch := by
  match cs with
  | [] => rfl
  | [a] => rfl
  | a :: b :: c :: rest => rfl
  | [a, b] =>
    cases a with
    | scalar x =>
      cases b with
      | scalar y =>
        simp [binaryShapeRule, Concrete.shape, broadcastShape] at h
      | array ys =>
        simp [binaryShapeRule, Concrete.shape, broadcastShape] at h
    | array xs =>
      cases b with
      | scalar y =>
        simp [binaryShapeRule, Concrete.shape, broadcastShape] at h
      | array ys =>
        simp only [List.map, Concrete.shape, binaryShapeRule, broadcastShape] at h
        split_ifs at h with h1 h2 h3
        simp only [ConvLib.binaryImpl, ConvLib.broadcast2, if_neg h1, if_neg h2, if_neg h3]

theorem unaryImpl_wf (f : ℚ → ℚ) (cs : List Concrete)
    (h : unaryShapeRule (cs.map Concrete.shape) = none) :
    ConvLib.unaryImpl f cs = .error .shapeMismatch := by
  match cs with
  | [] => rfl
  | [a] => simp [unaryShapeRule] at h
  | a :: b :: rest => rfl

theorem mkBinaryOp_wf (opName : String) (f : ℚ → ℚ → ℚ) :
    WellFormedOp (mkBinaryOp opName (ConvLib.binaryImpl f)) :=
  fun cs h => binaryImpl_wf f cs h

theorem mkUnaryOp_wf (opName : String) (f : ℚ → ℚ) :
    WellFormedOp (mkUnaryOp opName (ConvLib.unaryImpl f)) :=
  fun cs h => unaryImpl_wf f cs h

theorem sumOp_wf : WellFormedOp sumOp := by
  intro cs h
  match cs with
  | [] => rfl
  | [.scalar x] => simp [sumOp, reduceShapeRule] at h
  | [.array xs] => simp [sumOp, reduceShapeRule] at h
  | a :: b :: rest => cases a <;> rfl

theorem fooOp_wf : WellFormedOp fooOp := by
  intro cs h
  match cs with
  | [] => rfl
  | [a] => simp [fooOp, unaryShapeRule] at h
  | a :: b :: rest => rfl

theorem registry_wf : ∀ d ∈ builtinRegistry, WellFormedOp d := by
  intro d hd
  simp only [builtinRegistry, List.mem_cons, List.mem_singleton] at hd
  rcases hd with rfl | rfl | rfl | rfl | rfl | rfl | rfl | rfl | rfl | rfl | rfl | rfl | h
  · exact mkBinaryOp_wf "add" _
  · exact mkBinaryOp_wf "subtract" _
  · exact mkBinaryOp_wf "multiply" _
  · exact mkBinaryOp_wf "divide" _
  · exact mkBinaryOp_wf "greater_equal" _
  · exact mkBinaryOp_wf "less_equal" _
  · exact mkBinaryOp_wf "less" _
  · exact mkBinaryOp_wf "greater" _
  · exact mkUnaryOp_wf "fabs" _
  · exact mkUnaryOp_wf "negative" _
  · exact sumOp_wf
  · exact fooOp_wf
  · simp at h

theorem set_get_self {α : Type} (l : List α) (i : Nat) (h : i < l.length) :
    l.set i (l.get ⟨i, h⟩) = l := by
  apply List.ext_getElem
  · simp
  · intro n h1 h2
    rcases eq_or_ne n i with rfl | hne
    · simp [List.getElem_set]
    · simp only [List.getElem_set]
      rw [if_neg (by omega)]

theorem map_concrete_shape (cs : List Concrete) :
    (cs.map Value.concrete).map Value.shape = cs.map Concrete.shape := by
  simp [List.map_map, Function.comp, Value.shape]

theorem map_concrete_toNode (cs : List Concrete) :
    (cs.map Value.concrete).map Value.toNode = cs.map Node.constNode := by
  simp [List.map_map, Function.comp, Value.toNode]

theorem any_set_true {α : Type} (p : α → Bool) (l : List α) (i : Nat) (a : α)
    (hi : i < l.length) (ha : p a = true) : (l.set i a).any p = true := by
  induction l generalizing i with
  | nil => simp at hi
  | cons x xs ih =>
    cases i with
    | zero => simp [ha]
    | succ n =>
      have h2 := ih n (by simpa using hi)
      simp [h2]

theorem runCalls_state_eq (s : FacadeState) (calls : List (String × List Value)) :
    runCalls s calls = s := by
  induction calls generalizing s with
  | nil => rfl
  | cons c rest ih => simpa [runCalls, callOp] using ih s

/-- C1: for every registered operation, if every argument is a Concrete
Value, the facade's result is identical — bit for bit, with the
library's own precision and broadcasting semantics — to calling the
registered conventional array-library implementation directly on the
same arguments. -/
theorem concrete_dispatch_equals_library (reg : Registry) (opName : String)
    (d : OpDescriptor) (cs : List Concrete)
    (hlook : lookupOp reg opName = some d) :
    dispatch reg opName (cs.map Value.concrete)
      = (d.concreteImpl cs).map Value.concrete :=
  dispatch_map_concrete reg opName d cs hlook

theorem concrete_dispatch_equals_library_witness :
    lookupOp builtinRegistry "add" = some addOp
    ∧ dispatch builtinRegistry "add"
        ([Concrete.array [1, 2, 3], Concrete.scalar 10].map Value.concrete)
      = (addOp.concreteImpl [Concrete.array [1, 2, 3], Concrete.scalar 10]).map
          Value.concrete :=
  ⟨rfl, concrete_dispatch_equals_library builtinRegistry "add" addOp
    [Concrete.array [1, 2, 3], Concrete.scalar 10] rfl⟩

/-- Helper: the symbolic branch of the dispatch rule, in closed form. -/
theorem dispatch_symbolic_branch (reg : Registry) (opName : String)
    (d : OpDescriptor) (build : List Node → Shape → Node)
    (args : List Value) (outShape : Shape)
    (hlook : lookupOp reg opName = some d)
    (hsym : d.symbolicImpl = some build)
    (hmix : args.any Value.isSymbolic = true)
    (hshape : d.shapeRule (args.map Value.shape) = some outShape) :
    dispatch reg opName args
      = .ok (.symbolic (build (args.map Value.toNode) outShape)) := by
  simp [dispatch, hlook, hmix, hsym, hshape]

/-- C2: for every registered operation with a symbolic-path
implementation, a call whose arguments broadcast and contain at least
one Symbolic Node invokes the symbolic path on the coerced arguments
and returns a single well-formed Symbolic Node — never a Concrete Value
and never a type-confusion failure; every Concrete argument is coerced
to a constant graph node before composition. -/
theorem mixed_dispatch_returns_symbolic (reg : Registry) (opName : String)
    (d : OpDescriptor) (build : List Node → Shape → Node)
    (args : List Value) (outShape : Shape)
    (hlook : lookupOp reg opName = some d)
    (hsym : d.symbolicImpl = some build)
    (hmix : args.any Value.isSymbolic = true)
    (hshape : d.shapeRule (args.map Value.shape) = some outShape) :
    dispatch reg opName args
      = .ok (.symbolic (build (args.map Value.toNode) outShape))
    ∧ ∀ c : Concrete, Value.toNode (.concrete c) = .constNode c :=
  ⟨dispatch_symbolic_branch reg opName d build args outShape hlook hsym hmix hshape,
   fun _ => rfl⟩

theorem mixed_dispatch_returns_symbolic_witness :
    lookupOp builtinRegistry "fabs" = some fabsOp
    ∧ fabsOp.symbolicImpl = some (appBuilder "fabs")
    ∧ [Value.symbolic (.varNode 0 none)].any Value.isSymbolic = true
    ∧ fabsOp.shapeRule ([Value.symbolic (.varNode 0 none)].map Value.shape)
        = some none
    ∧ (dispatch builtinRegistry "fabs" [Value.symbolic (.varNode 0 none)]
        = .ok (.symbolic (appBuilder "fabs"
            ([Value.symbolic (.varNode 0 none)].map Value.toNode) none))
      ∧ ∀ c : Concrete, Value.toNode (.concrete c) = .constNode c) :=
  ⟨rfl, rfl, rfl, rfl,
    mixed_dispatch_returns_symbolic builtinRegistry "fabs" fabsOp
      (appBuilder "fabs") [Value.symbolic (.varNode 0 none)] none
      rfl rfl rfl rfl⟩

/-- C3: invoking an operation with at least one Symbolic Node argument
when no symbolic-path implementation is registered for it fails with
the `unsupportedOperation` error, returned synchronously to the caller
rather than as a generic or uncaught failure, and is not retried. -/
theorem unsupported_operation_error (reg : Registry) (opName : String)
    (d : OpDescriptor) (args : List Value)
    (hlook : lookupOp reg opName = some d)
    (hnone : d.symbolicImpl = none)
    (hmix : args.any Value.isSymbolic = true) :
    dispatch reg opName args = .error .unsupportedOperation := by
  simp [dispatch, hlook, hmix, hnone]

theorem unsupported_operation_error_witness :
    lookupOp builtinRegistry "foo" = some fooOp
    ∧ fooOp.symbolicImpl = none
    ∧ [Value.symbolic (.varNode 0 none)].any Value.isSymbolic = true
    ∧ dispatch builtinRegistry "foo" [Value.symbolic (.varNode 0 none)]
        = .error .unsupportedOperation :=
  ⟨rfl, rfl, rfl,
    unsupported_operation_error builtinRegistry "foo" fooOp
      [Value.symbolic (.varNode 0 none)] rfl rfl rfl⟩

/-- C4: for every registered operation whose symbolic path emits the
operation's application node, replacing any single Concrete Value
argument of a successful all-concrete call with an equivalent constant
Symbolic Node yields a Symbolic Node whose later evaluation by the
external solver equals the all-concrete result — here exactly, hence in
particular within any floating-point tolerance: the concrete path and
the symbolic path compute the same mathematical function. -/
theorem symbolic_path_refines_concrete_path (reg : Registry) (opName : String)
    (d : OpDescriptor) (cs : List Concrete) (r : Concrete) (i : Nat)
    (hi : i < cs.length)
    (hlook : lookupOp reg opName = some d)
    (hsym : d.symbolicImpl = some (appBuilder opName))
    (hwf : WellFormedOp d)
    (hconc : dispatch reg opName (cs.map Value.concrete) = .ok (.concrete r)) :
    ∃ n : Node,
      dispatch reg opName
          ((cs.map Value.concrete).set i
            (.symbolic (.constNode (cs.get ⟨i, hi⟩))))
        = .ok (.symbolic n)
      ∧ evalNode reg n = .ok r := by
  have h1 := dispatch_map_concrete reg opName d cs hlook
  rw [hconc] at h1
  have himpl : d.concreteImpl cs = .ok r := by
    cases himpl0 : d.concreteImpl cs with
    | error e => rw [himpl0] at h1; simp [Except.map] at h1
    | ok c =>
      rw [himpl0] at h1
      simp only [Except.map, Except.ok.injEq, Value.concrete.injEq] at h1
      rw [h1]
  obtain ⟨s, hs⟩ : ∃ s, d.shapeRule (cs.map Concrete.shape) = some s := by
    cases hs0 : d.shapeRule (cs.map Concrete.shape) with
    | none => rw [hwf cs hs0] at himpl; exact absurd himpl (by simp)
    | some s => exact ⟨s, rfl⟩
  have hany : ((cs.map Value.concrete).set i
      (Value.symbolic (.constNode (cs.get ⟨i, hi⟩)))).any Value.isSymbolic
        = true :=
    any_set_true Value.isSymbolic (cs.map Value.concrete) i
      (Value.symbolic (.constNode (cs.get ⟨i, hi⟩))) (by simpa using hi) rfl
  have hshapes : ((cs.map Value.concrete).set i
      (Value.symbolic (.constNode (cs.get ⟨i, hi⟩)))).map Value.shape
        = cs.map Concrete.shape := by
    rw [List.map_set, map_concrete_shape]
    have h5 : Value.shape (Value.symbolic (.constNode (cs.get ⟨i, hi⟩)))
        = (cs.map Concrete.shape).get ⟨i, by simpa using hi⟩ := by
      simp [Value.shape, Node.shape]
    rw [h5, set_get_self]
  have hnodes : ((cs.map Value.concrete).set i
      (Value.symbolic (.constNode (cs.get ⟨i, hi⟩)))).map Value.toNode
        = cs.map Node.constNode := by
    rw [List.map_set, map_concrete_toNode]
    have h6 : Value.toNode (Value.symbolic (.constNode (cs.get ⟨i, hi⟩)))
        = (cs.map Node.constNode).get ⟨i, by simpa using hi⟩ := by
      simp [Value.toNode]
    rw [h6, set_get_self]
  have hdisp := dispatch_symbolic_branch reg opName d (appBuilder opName)
    ((cs.map Value.concrete).set i (.symbolic (.constNode (cs.get ⟨i, hi⟩)))) s
    hlook hsym hany (by rw [hshapes]; exact hs)
  rw [hnodes] at hdisp
  refine ⟨appBuilder opName (cs.map Node.constNode) s, hdisp, ?_⟩
  simp [appBuilder, evalNode, hlook, evalNodes_constNodes, hs, himpl]

theorem symbolic_path_refines_concrete_path_witness :
    lookupOp builtinRegistry "sum" = some sumOp
    ∧ sumOp.symbolicImpl = some (appBuilder "sum")
    ∧ dispatch builtinRegistry "sum" ([Concrete.scalar 7].map Value.concrete)
      = .ok (.concrete (.scalar 7))
    ∧ ∃ n : Node,
        dispatch builtinRegistry "sum"
            (([Concrete.scalar 7].map Value.concrete).set 0
              (.symbolic (.constNode ([Concrete.scalar 7].get ⟨0, by decide⟩))))
          = .ok (.symbolic n)
        ∧ evalNode builtinRegistry n = .ok (.scalar 7) :=
  ⟨rfl, rfl, rfl,
    symbolic_path_refines_concrete_path builtinRegistry "sum" sumOp
      [Concrete.scalar 7] (.scalar 7) 0 (by decide)
      rfl rfl sumOp_wf rfl⟩

/-- C5: invoking a well-formed registered operation with argument
shapes the operation's broadcasting rule rejects fails immediately with
`shapeMismatch`; on an all-Concrete-Value call this is exactly the
conventional array-library's own error for the same inputs, and on a
call holding a Symbolic Node (when a symbolic path exists) the facade
raises the same `shapeMismatch`, so behavior matches the library's
error regardless of which dispatch path would have fired. -/
theorem shape_mismatch_mirrors_library (reg : Registry) (opName : String)
    (d : OpDescriptor) (args : List Value)
    (hlook : lookupOp reg opName = some d)
    (hwf : WellFormedOp d)
    (hbad : d.shapeRule (args.map Value.shape) = none) :
    (∀ cs : List Concrete, args = cs.map Value.concrete →
        dispatch reg opName args = .error .shapeMismatch
        ∧ d.concreteImpl cs = .error .shapeMismatch)
    ∧ (∀ build : List Node → Shape → Node, d.symbolicImpl = some build →
        args.any Value.isSymbolic = true →
        dispatch reg opName args = .error .shapeMismatch) := by
  constructor
  · rintro cs rfl
    have h1 : d.concreteImpl cs = .error .shapeMismatch := by
      apply hwf
      rw [← map_concrete_shape]
      exact hbad
    refine ⟨?_, h1⟩
    rw [dispatch_map_concrete reg opName d cs hlook, h1]
    rfl
  · intro build hb hmix
    simp [dispatch, hlook, hmix, hb, hbad]

theorem shape_mismatch_mirrors_library_witness :
    lookupOp builtinRegistry "add" = some addOp
    ∧ addOp.shapeRule
        (([Concrete.array [1, 2, 3], Concrete.array [1, 2, 3, 4]].map
          Value.concrete).map Value.shape) = none
    ∧ dispatch builtinRegistry "add"
        ([Concrete.array [1, 2, 3], Concrete.array [1, 2, 3, 4]].map
          Value.concrete)
      = .error .shapeMismatch
    ∧ addOp.concreteImpl [Concrete.array [1, 2, 3], Concrete.array [1, 2, 3, 4]]
      = .error .shapeMismatch :=
  have h := shape_mismatch_mirrors_library builtinRegistry "add" addOp
    ([Concrete.array [1, 2, 3], Concrete.array [1, 2, 3, 4]].map Value.concrete)
    rfl (mkBinaryOp_wf "add" (fun x y => x + y)) rfl
  ⟨rfl, rfl, (h.1 _ rfl).1, (h.1 _ rfl).2⟩

/-- C6: attempting to register a second implementation pair under an
operation name already present in the registry fails with
`registrationConflict` at registration time and yields no extended
registry at all, so the failure is never deferred to call time. -/
theorem registration_conflict_at_registration_time (reg : Registry)
    (d : OpDescriptor)
    (hdup : reg.any (fun d0 => d0.name == d.name) = true) :
    register reg d = .error .registrationConflict
    ∧ ∀ reg2 : Registry, register reg d ≠ .ok reg2 := by
  have h : register reg d = .error .registrationConflict := by
    simp [register, hdup]
  exact ⟨h, fun reg2 hc => by rw [h] at hc; exact Except.noConfusion hc⟩

theorem registration_conflict_at_registration_time_witness :
    builtinRegistry.any (fun d0 => d0.name == (mkBinaryOp "add" ConvLib.multiply).name)
        = true
    ∧ (register builtinRegistry (mkBinaryOp "add" ConvLib.multiply)
        = .error .registrationConflict
      ∧ ∀ reg2 : Registry,
          register builtinRegistry (mkBinaryOp "add" ConvLib.multiply) ≠ .ok reg2) :=
  ⟨rfl, registration_conflict_at_registration_time builtinRegistry
    (mkBinaryOp "add" ConvLib.multiply) rfl⟩

/-- C7: for all-Concrete-Value calls (indeed, for every call) the
facade's dispatch leaves the global state — in particular the operation
registry, populated once at process start — observably unchanged, no
matter how many calls are made. -/
theorem dispatch_preserves_global_state (calls : List (String × List Value))
    (hconc : ∀ c ∈ calls, ∀ a ∈ c.2, a.isSymbolic = false) :
    runCalls initState calls = initState
    ∧ (runCalls initState calls).registry = builtinRegistry := by
  have h := runCalls_state_eq initState calls
  exact ⟨h, by rw [h]; rfl⟩

theorem dispatch_preserves_global_state_witness :
    (∀ c ∈ [(("add" : String),
        [Value.concrete (.scalar 1), Value.concrete (.scalar 2)]),
        (("add" : String),
        [Value.concrete (.scalar 1), Value.concrete (.scalar 2)])],
      ∀ a ∈ c.2, a.isSymbolic = false)
    ∧ (runCalls initState [(("add" : String),
        [Value.concrete (.scalar 1), Value.concrete (.scalar 2)]),
        (("add" : String),
        [Value.concrete (.scalar 1), Value.concrete (.scalar 2)])] = initState
      ∧ (runCalls initState [(("add" : String),
          [Value.concrete (.scalar 1), Value.concrete (.scalar 2)]),
          (("add" : String),
          [Value.concrete (.scalar 1), Value.concrete (.scalar 2)])]).registry
        = builtinRegistry) :=
  ⟨by decide,
    dispatch_preserves_global_state
      [(("add" : String), [Value.concrete (.scalar 1), Value.concrete (.scalar 2)]),
       (("add" : String), [Value.concrete (.scalar 1), Value.concrete (.scalar 2)])]
      (by decide)⟩

/-- C8: dispatch is deterministic and stateless across calls — the
result of a facade call does not depend on any prior call history, and
equal operation names with equal argument lists always produce equal
results, with no hidden per-call state or transient condition. -/
theorem dispatch_deterministic_stateless :
    ∀ (hist1 hist2 : List (String × List Value)) (opName : String)
      (args : List Value),
      (callOp (runCalls initState hist1) opName args).1
        = (callOp (runCalls initState hist2) opName args).1
      ∧ (callOp (runCalls initState hist1) opName args).1
        = dispatch builtinRegistry opName args := by
  intro hist1 hist2 opName args
  rw [runCalls_state_eq, runCalls_state_eq]
  exact ⟨rfl, rfl⟩

/-- C9: the comparison operations applied to a Symbolic Node and a
Concrete Value (as in `x >= 0`, `x <= pi / 2`, `CL < 1.2`) return
symbolic constraint expressions — graph nodes — rather than evaluating
to concrete booleans, and `opti.subject_to` accepts either a single
such constraint or a list of them, appending them to the environment's
constraint set. -/
theorem comparison_constraints_symbolic_and_listable :
    (∀ (x : Node) (q : ℚ),
        dispatch builtinRegistry "greater_equal"
            [Value.symbolic x, Value.concrete (.scalar q)]
          = .ok (.symbolic (.appNode "greater_equal"
              [x, .constNode (.scalar q)] x.shape))
        ∧ dispatch builtinRegistry "less_equal"
            [Value.symbolic x, Value.concrete (.scalar q)]
          = .ok (.symbolic (.appNode "less_equal"
              [x, .constNode (.scalar q)] x.shape))
        ∧ dispatch builtinRegistry "less"
            [Value.symbolic x, Value.concrete (.scalar q)]
          = .ok (.symbolic (.appNode "less"
              [x, .constNode (.scalar q)] x.shape)))
    ∧ (∀ (o : Opti) (n : Node),
        (o.subject_to (.single n)).constraints = o.constraints ++ [n])
    ∧ (∀ (o : Opti) (ns : List Node),
        (o.subject_to (.list ns)).constraints = o.constraints ++ ns) := by
  refine ⟨fun x q => ?_, fun o n => rfl, fun o ns => rfl⟩
  have hsh : binaryShapeRule
      ([Value.symbolic x, Value.concrete (.scalar q)].map Value.shape)
        = some x.shape := by
    simp [binaryShapeRule, Value.shape, Concrete.shape, broadcastShape_none_right]
  refine ⟨?_, ?_, ?_⟩
  · exact dispatch_symbolic_branch builtinRegistry "greater_equal" greaterEqualOp
      (appBuilder "greater_equal") [Value.symbolic x, Value.concrete (.scalar q)]
      x.shape rfl rfl rfl hsh
  · exact dispatch_symbolic_branch builtinRegistry "less_equal" lessEqualOp
      (appBuilder "less_equal") [Value.symbolic x, Value.concrete (.scalar q)]
      x.shape rfl rfl rfl hsh
  · exact dispatch_symbolic_branch builtinRegistry "less" lessOp
      (appBuilder "less") [Value.symbolic x, Value.concrete (.scalar q)]
      x.shape rfl rfl rfl hsh

/-- C10: a variable declared with `log_transform=True` is internally
optimized as its logarithm: its declaration adds no positivity
constraint to the environment, its visible value is the exponential of
the solver's internal iterate, and that value is strictly positive for
every internal iterate — hence in every solver iterate and every
returned solution. -/
theorem log_transform_variable_strictly_positive :
    (∀ (o : Opti) (g : ℚ) (lb : Option ℚ),
        ((o.newVariable g true lb).1).constraints = o.constraints)
    ∧ (∀ v : ℝ, variableValue true v = Real.exp v)
    ∧ (∀ v : ℝ, 0 < variableValue true v) := by
  refine ⟨fun o g lb => rfl, fun v => rfl, fun v => ?_⟩
  have h : variableValue true v = Real.exp v := rfl
  rw [h]
  exact Real.exp_pos v

end ASB
